import Mathlib

/-!
Verification development for the TrialTalk clinical-trial assistant.

The Python sources are shallowly embedded: each relevant function is
translated into an executable Lean definition, and the stated properties
are proved about those definitions.  Machine floats used for timestamps
are modelled as rationals; exceptions are modelled as explicit outcome
values; Python dictionaries are modelled as association lists in
insertion order.
-/

/-! ### JSON-like values

Upstream responses and tool results are JSON dictionaries; we model them
as association lists of `JVal`. -/

inductive JVal where
  | jnull
  | jbool (b : Bool)
  | jnum (n : Int)
  | jstr (s : String)
  | jarr (elems : List JVal)
  | jobj (fields : List (String × JVal))

/-- Python `d.get(k)` on a dict modelled as an association list: the value
bound to the first occurrence of the key, if any. -/
def dictGet (d : List (String × JVal)) (k : String) : Option JVal :=
  (d.find? (fun kv => kv.1 == k)).map (·.2)

/-- Python `k in d` on a dict modelled as an association list. -/
def dictContains (d : List (String × JVal)) (k : String) : Bool :=
  d.any (fun kv => kv.1 == k)

/-! ### HTTP client (src/clinicaltrials-mcp/client_api/__init__.py)

`ClinicalTrialsAPIClient.get` performs up to `retries` attempts.  Each
attempt either returns a parsed response dictionary or raises an httpx
exception; we model the environment's behaviour on attempt `i` as
`outcomes i`.  Transport faults (`httpx.ReadError`,
`httpx.RemoteProtocolError`, `httpx.WriteError`) trigger `aclose()` (the
pool is discarded and lazily recreated) and a retry unless the attempt
was the last one; every other exception is re-raised immediately. -/

inductive TransportKind where
  | readError
  | remoteProtocolError
  | writeError
deriving Repr, DecidableEq

inductive HttpxError where
  | transport (kind : TransportKind) (msg : String)
  | statusErr (code : Nat) (body : String)
  | requestErr (msg : String)
  | otherErr (msg : String)
deriving Repr, DecidableEq

/-- Outcome of one upstream GET attempt: either the reshaped JSON body
(after `raise_for_status` succeeded and the content-type dispatch ran),
or the exception the attempt raised. -/
inductive AttemptOutcome where
  | success (v : JVal)
  | fault (e : HttpxError)

/-- Observable result of one call to `ClinicalTrialsAPIClient.get`:
the returned value (`Except.ok`; `none` models Python's implicit `None`
when the loop body never runs), or the raised exception
(`Except.error`), together with how many upstream requests were issued
and how many times `aclose()` (pool teardown) ran. -/
structure GetRun where
  result : Except HttpxError (Option JVal)
  attemptsMade : Nat
  closeCalls : Nat

/-- The retry loop of `ClinicalTrialsAPIClient.get`, starting at attempt
index `attempt` with `remaining` loop iterations left
(`remaining = retries - attempt`). -/
def getGo (outcomes : Nat → AttemptOutcome) : Nat → Nat → GetRun
  | 0, _ => ⟨.ok none, 0, 0⟩
  | remaining + 1, attempt =>
    match outcomes attempt with
    | .success v => ⟨.ok (some v), 1, 0⟩
    | .fault e =>
      match e with
      | .transport kind msg =>
        if remaining = 0 then
          ⟨.error (.transport kind msg), 1, 1⟩
        else
          let r := getGo outcomes remaining (attempt + 1)
          ⟨r.result, r.attemptsMade + 1, r.closeCalls + 1⟩
      | .statusErr code body => ⟨.error (.statusErr code body), 1, 0⟩
      | .requestErr msg => ⟨.error (.requestErr msg), 1, 0⟩
      | .otherErr msg => ⟨.error (.otherErr msg), 1, 0⟩

/-- `ClinicalTrialsAPIClient.get` with a retry ceiling of `retries`. -/
def clientGet (outcomes : Nat → AttemptOutcome) (retries : Nat) : GetRun :=
  getGo outcomes retries 0

/-- Default value of the `retries` parameter in the source. -/
def defaultRetries : Nat := 3

theorem getGo_transport_then_success
    (oc : Nat → AttemptOutcome) (v : JVal) (fk : Nat → TransportKind) (fm : Nat → String) :
    ∀ (k remaining attempt : Nat), k < remaining →
      (∀ i, attempt ≤ i → i < attempt + k → oc i = .fault (.transport (fk i) (fm i))) →
      oc (attempt + k) = .success v →
      getGo oc remaining attempt = ⟨.ok (some v), k + 1, k⟩ := by
  intro k
  induction k with
  | zero =>
    intro remaining attempt hk _ hs
    match remaining, hk with
    | remaining + 1, _ =>
      simp only [getGo]
      rw [show attempt + 0 = attempt from rfl] at hs
      rw [hs]
  | succ k ih =>
    intro remaining attempt hk hf hs
    match remaining, hk with
    | remaining + 1, hk =>
      have hfault : oc attempt = .fault (.transport (fk attempt) (fm attempt)) := by
        apply hf attempt (Nat.le_refl attempt)
        omega
      simp only [getGo, hfault]
      have hrem : ¬ remaining = 0 := by omega
      simp only [hrem, if_false]
      have hr : getGo oc remaining (attempt + 1) = ⟨.ok (some v), k + 1, k⟩ := by
        apply ih remaining (attempt + 1)
        · omega
        · intro i hi1 hi2
          apply hf i (by omega) (by omega)
        · rw [show attempt + 1 + k = attempt + (k + 1) by omega]
          exact hs
      rw [hr]

theorem getGo_all_transport
    (oc : Nat → AttemptOutcome) (fk : Nat → TransportKind) (fm : Nat → String) :
    ∀ (remaining attempt : Nat), 0 < remaining →
      (∀ i, attempt ≤ i → i < attempt + remaining →
        oc i = .fault (.transport (fk i) (fm i))) →
      getGo oc remaining attempt =
        ⟨.error (.transport (fk (attempt + remaining - 1)) (fm (attempt + remaining - 1))),
          remaining, remaining⟩ := by
  intro remaining
  induction remaining with
  | zero => intro attempt h; omega
  | succ remaining ih =>
    intro attempt _ hf
    have hfault : oc attempt = .fault (.transport (fk attempt) (fm attempt)) := by
      apply hf attempt (Nat.le_refl attempt)
      omega
    simp only [getGo, hfault]
    by_cases hrem : remaining = 0
    · subst hrem
      simp only [if_true]
      rw [show attempt + 1 - 1 = attempt by omega]
    · simp only [hrem, if_false]
      have hr := ih (attempt + 1) (by omega) (by
        intro i hi1 hi2
        apply hf i (by omega) (by omega))
      rw [hr]
      rw [show attempt + 1 + remaining - 1 = attempt + (remaining + 1) - 1 by omega]

/-- C1: with retry ceiling `retries`, if the first `k < retries` attempts
raise transport faults and attempt `k + 1` succeeds, the client returns
the successful result after `k + 1` upstream requests, having closed
(and thereby forced recreation of) the pooled connection once before
each of the `k` retries; if all `retries` attempts raise transport
faults, the client raises the fault of the last attempt. -/
theorem client_get_transport_retry (retries k : Nat) (hk : k < retries)
    (oc : Nat → AttemptOutcome) (fk : Nat → TransportKind) (fm : Nat → String)
    (hf : ∀ i, i < k → oc i = .fault (.transport (fk i) (fm i)))
    (v : JVal) (hs : oc k = .success v)
    (oc2 : Nat → AttemptOutcome) (gk : Nat → TransportKind) (gm : Nat → String)
    (hf2 : ∀ i, i < retries → oc2 i = .fault (.transport (gk i) (gm i))) :
    clientGet oc retries = ⟨.ok (some v), k + 1, k⟩ ∧
    clientGet oc2 retries =
      ⟨.error (.transport (gk (retries - 1)) (gm (retries - 1))), retries, retries⟩ := by
  constructor
  · apply getGo_transport_then_success oc v fk fm k retries 0 hk
    · intro i _ hi2
      exact hf i (by omega)
    · simpa using hs
  · have h := getGo_all_transport oc2 gk gm retries 0 (by omega) (by
      intro i _ hi2
      exact hf2 i (by omega))
    simpa using h

/-- Witness for C1 at a concrete input: ceiling 3, one transport fault
then success for the first scenario, three transport faults for the
second. -/
theorem client_get_transport_retry_witness :
    clientGet
      (fun i => if i = 0 then .fault (.transport .readError "r0") else .success (.jobj []))
      3 = ⟨.ok (some (.jobj [])), 2, 1⟩ ∧
    clientGet (fun i => .fault (.transport .readError (toString i))) 3 =
      ⟨.error (.transport .readError "2"), 3, 3⟩ := by
  have h := client_get_transport_retry 3 1 (by omega)
    (fun i => if i = 0 then .fault (.transport .readError "r0") else .success (.jobj []))
    (fun _ => .readError) (fun _ => "r0")
    (by intro i hi; interval_cases i; rfl)
    (.jobj []) rfl
    (fun i => .fault (.transport .readError (toString i)))
    (fun _ => .readError) (fun i => toString i)
    (by intro i hi; rfl)
  exact h

/-- C2: an HTTP status error or a generic request error raised on the
first attempt propagates immediately: the client raises it and exactly
one upstream request is made (and the pool is not recycled). -/
theorem client_get_no_retry_on_status_or_request_error (retries : Nat) (hr : 0 < retries)
    (oc : Nat → AttemptOutcome) (e : HttpxError)
    (he : oc 0 = .fault e)
    (hkind : (∃ code body, e = .statusErr code body) ∨ (∃ msg, e = .requestErr msg)) :
    clientGet oc retries = ⟨.error e, 1, 0⟩ := by
  match retries, hr with
  | retries + 1, _ =>
    rcases hkind with ⟨code, body, rfl⟩ | ⟨msg, rfl⟩ <;>
      simp only [clientGet, getGo, he]

/-- Witness for C2 at a concrete input: a 404 status error with ceiling 3. -/
theorem client_get_no_retry_witness :
    clientGet (fun _ => .fault (.statusErr 404 "not found")) defaultRetries =
      ⟨.error (.statusErr 404 "not found"), 1, 0⟩ :=
  client_get_no_retry_on_status_or_request_error defaultRetries (by decide)
    (fun _ => .fault (.statusErr 404 "not found")) (.statusErr 404 "not found") rfl
    (Or.inl ⟨404, "not found", rfl⟩)

/-! ### Rate limiter middleware (src/clinicaltrials-mcp/middleware/rate_limiter.py)

`RateLimitMiddleware.on_tool_call` keeps, per client key (always the
constant `"global"`), the list of admitted call timestamps.  On each
call it first drops timestamps older than the 60-second window, then
rejects (raises) if the remaining count has reached the ceiling, and
otherwise records the current timestamp.  `time.time()` floats are
modelled as rationals. -/

structure RateLimitState where
  requests : List ℚ
deriving Repr, DecidableEq

/-- The 60-second window (`self.window`). -/
def rlWindow : ℚ := 60

/-- The list comprehension keeping only timestamps still inside the window. -/
def pruneOld (now : ℚ) (times : List ℚ) : List ℚ :=
  times.filter (fun t => now - t < rlWindow)

/-- One call to `on_tool_call` (with rate limiting enabled) at time
`now`: returns the new recorded-timestamp state and `true` when the call
is admitted, `false` when it is rejected by raising. -/
def onToolCall (limit : Nat) (st : RateLimitState) (now : ℚ) : RateLimitState × Bool :=
  let pruned := pruneOld now st.requests
  if limit ≤ pruned.length then
    (⟨pruned⟩, false)
  else
    (⟨pruned ++ [now]⟩, true)

/-- A sequence of `on_tool_call` invocations at the given times. -/
def runCalls (limit : Nat) (st : RateLimitState) : List ℚ → RateLimitState × List Bool
  | [] => (st, [])
  | t :: ts =>
    let step := onToolCall limit st t
    let rest := runCalls limit step.1 ts
    (rest.1, step.2 :: rest.2)

theorem runCalls_all_in_window (limit : Nat) (t0 : ℚ) :
    ∀ (ts rs : List ℚ),
      (∀ a ∈ rs, t0 ≤ a ∧ a < t0 + rlWindow) →
      (∀ a ∈ ts, t0 ≤ a ∧ a < t0 + rlWindow) →
      rs.length + ts.length ≤ limit →
      runCalls limit ⟨rs⟩ ts = (⟨rs ++ ts⟩, List.replicate ts.length true) := by
  intro ts
  induction ts with
  | nil =>
    intro rs _ _ _
    simp [runCalls]
  | cons t ts ih =>
    intro rs hrs hts hlen
    have hprune : pruneOld t rs = rs := by
      apply List.filter_eq_self.mpr
      intro a ha
      have h1 := (hrs a ha).1
      have h2 := (hrs a ha).2
      have ht1 := (hts t (List.mem_cons_self t ts)).1
      have ht2 := (hts t (List.mem_cons_self t ts)).2
      simp only [decide_eq_true_eq]
      linarith
    have hlt : ¬ limit ≤ rs.length := by
      simp only [List.length_cons] at hlen
      omega
    simp only [runCalls, onToolCall, hprune, hlt, if_false]
    have hstep := ih (rs ++ [t])
      (by
        intro a ha
        rcases List.mem_append.mp ha with h | h
        · exact hrs a h
        · simp only [List.mem_singleton] at h
          rw [h]
          exact hts t (List.mem_cons_self t ts))
      (by
        intro a ha
        exact hts a (List.mem_cons_of_mem t ha))
      (by
        simp only [List.length_append, List.length_singleton, List.length_cons,
          List.length_nil] at hlen ⊢
        omega)
    simp only [hstep, List.append_assoc, List.singleton_append, List.length_cons,
      List.replicate_succ]

/-- C5: starting from an empty record, `limit` calls whose timestamps all
lie inside one 60-second window are all admitted; the next call that is
still within 60 seconds of the earliest of them is rejected; and a call
made at least 60 seconds after every recorded timestamp is admitted
again (all stale timestamps having been pruned). -/
theorem rate_limiter_window (limit : Nat) (hlim : 0 < limit)
    (t0 : ℚ) (ts : List ℚ) (hlen : ts.length = limit)
    (hin : ∀ a ∈ ts, t0 ≤ a ∧ a < t0 + rlWindow)
    (e : ℚ) (_he : e ∈ ts) (hemin : ∀ a ∈ ts, e ≤ a)
    (u : ℚ) (hu : u - e < rlWindow)
    (v : ℚ) (hv : ∀ a ∈ ts, a + rlWindow ≤ v) :
    runCalls limit ⟨[]⟩ ts = (⟨ts⟩, List.replicate limit true) ∧
    onToolCall limit ⟨ts⟩ u = (⟨ts⟩, false) ∧
    onToolCall limit ⟨ts⟩ v = (⟨[v]⟩, true) := by
  refine ⟨?_, ?_, ?_⟩
  · have h := runCalls_all_in_window limit t0 ts [] (by simp) hin (by simp [hlen])
    simpa [hlen] using h
  · have hprune : pruneOld u ts = ts := by
      apply List.filter_eq_self.mpr
      intro a ha
      have h1 := hemin a ha
      simp only [decide_eq_true_eq]
      linarith
    simp only [onToolCall, hprune, hlen, le_refl, if_true]
  · have hprune : pruneOld v ts = [] := by
      apply List.filter_eq_nil_iff.mpr
      intro a ha
      have h1 := hv a ha
      simp only [decide_eq_true_eq, not_lt]
      linarith
    have hlt : ¬ limit ≤ ([] : List ℚ).length := by simp; omega
    simp only [onToolCall, hprune, hlt, if_false, List.nil_append]

/-- Witness for C5 at a concrete input: ceiling 2, calls at times 0 and
1, a rejected call at time 50, and a recovered call at time 61. -/
theorem rate_limiter_window_witness :
    runCalls 2 ⟨[]⟩ [0, 1] = (⟨[0, 1]⟩, List.replicate 2 true) ∧
    onToolCall 2 ⟨[0, 1]⟩ 50 = (⟨[0, 1]⟩, false) ∧
    onToolCall 2 ⟨[0, 1]⟩ 61 = (⟨[61]⟩, true) := by
  have h := rate_limiter_window 2 (by omega) 0 [0, 1] (by simp)
    (by
      intro a ha
      fin_cases ha <;> norm_num [rlWindow])
    0 (by simp) (by
      intro a ha
      fin_cases ha <;> norm_num)
    50 (by norm_num [rlWindow]) 61 (by
      intro a ha
      fin_cases ha <;> norm_num [rlWindow])
  exact h

/-- C10: a rejected call records nothing: when `on_tool_call` rejects,
the stored timestamp list is exactly the pruned old list (a sublist of
the previous one, not containing the new timestamp); and whenever the
stored list is within the ceiling before a call, it still is afterwards,
whether the call is admitted or rejected. -/
theorem rate_limiter_rejected_not_recorded (limit : Nat) (st : RateLimitState) (now : ℚ)
    (h : st.requests.length ≤ limit) :
    (onToolCall limit st now).1.requests.length ≤ limit ∧
    ((onToolCall limit st now).2 = false →
      (onToolCall limit st now).1.requests = pruneOld now st.requests ∧
      (onToolCall limit st now).1.requests.Sublist st.requests) := by
  have hsub : (pruneOld now st.requests).Sublist st.requests := List.filter_sublist _
  have hple : (pruneOld now st.requests).length ≤ st.requests.length :=
    List.Sublist.length_le hsub
  by_cases hc : limit ≤ (pruneOld now st.requests).length
  · have heq : onToolCall limit st now = (⟨pruneOld now st.requests⟩, false) := by
      simp only [onToolCall]
      rw [if_pos hc]
    rw [heq]
    exact ⟨(by omega : (pruneOld now st.requests).length ≤ limit), fun _ => ⟨rfl, hsub⟩⟩
  · have heq : onToolCall limit st now = (⟨pruneOld now st.requests ++ [now]⟩, true) := by
      simp only [onToolCall]
      rw [if_neg hc]
    rw [heq]
    refine ⟨?_, fun hfalse => by simp at hfalse⟩
    simp only [List.length_append, List.length_singleton, List.length_nil, List.length_cons]
    omega

/-- Witness for C10 at a concrete input: ceiling 1, one recorded
timestamp, a rejected call at time 30. -/
theorem rate_limiter_rejected_not_recorded_witness :
    (onToolCall 1 ⟨[0]⟩ 30).1.requests.length ≤ 1 ∧
    (onToolCall 1 ⟨[0]⟩ 30).1.requests = pruneOld 30 [0] ∧
    (onToolCall 1 ⟨[0]⟩ 30).1.requests.Sublist [0] := by
  have h := rate_limiter_rejected_not_recorded 1 ⟨[0]⟩ 30 (by simp)
  refine ⟨h.1, h.2 ?_⟩
  norm_num [onToolCall, pruneOld, rlWindow]

/-! ### Conversation memory (src/clinicaltrial-agent/memory/conversation_manager.py)

`InMemoryChatHistory` keeps a message list capped at
`conversation_memory_window * 2` entries; `add_message` appends and then
keeps only the most recent `max_messages` entries via the Python slice
`self.messages[-self.max_messages:]`. -/

inductive BaseMessage where
  | human (content : String)
  | ai (content : String)
deriving Repr, DecidableEq

/-- Python `l[-k:]` for `k ≥ 0`: the last `k` elements, except that
`k = 0` yields the whole list (`l[-0:]` is `l[0:]`). -/
def pyTakeLast (k : Nat) (l : List BaseMessage) : List BaseMessage :=
  if k = 0 then l else l.drop (l.length - k)

/-- The most recent `k` entries of `l` (the whole list when it is
shorter than `k`). -/
def takeLast (k : Nat) (l : List BaseMessage) : List BaseMessage :=
  l.drop (l.length - k)

structure InMemoryChatHistory where
  session_id : String
  messages : List BaseMessage
  max_messages : Nat
deriving Repr, DecidableEq

/-- `InMemoryChatHistory.__init__` with the configured
`conversation_memory_window`. -/
def InMemoryChatHistory.init (sid : String) (window : Nat) : InMemoryChatHistory :=
  ⟨sid, [], window * 2⟩

/-- `InMemoryChatHistory.add_message`. -/
def InMemoryChatHistory.add_message (h : InMemoryChatHistory) (m : BaseMessage) :
    InMemoryChatHistory :=
  let msgs := h.messages ++ [m]
  if h.max_messages < msgs.length then
    { h with messages := pyTakeLast h.max_messages msgs }
  else
    { h with messages := msgs }

/-- Adding a whole sequence of messages in order. -/
def addAll (h : InMemoryChatHistory) (ms : List BaseMessage) : InMemoryChatHistory :=
  ms.foldl InMemoryChatHistory.add_message h

theorem takeLast_of_le {k : Nat} {l : List BaseMessage} (h : l.length ≤ k) :
    takeLast k l = l := by
  unfold takeLast
  rw [Nat.sub_eq_zero_of_le h, List.drop_zero]

theorem takeLast_length (k : Nat) (l : List BaseMessage) :
    (takeLast k l).length ≤ k := by
  unfold takeLast
  rw [List.length_drop]
  omega

theorem takeLast_append_of_le {k : Nat} (a c : List BaseMessage) (h : k ≤ c.length) :
    takeLast k (a ++ c) = takeLast k c := by
  unfold takeLast
  rw [List.length_append]
  rw [show a.length + c.length - k = a.length + (c.length - k) by omega]
  rw [List.drop_append_eq_append_drop]
  rw [List.drop_of_length_le (by omega)]
  simp only [List.nil_append]
  congr 1
  omega

theorem takeLast_takeLast_append (k : Nat) (l : List BaseMessage) (m : BaseMessage) :
    takeLast k (takeLast k l ++ [m]) = takeLast k (l ++ [m]) := by
  by_cases hl : l.length ≤ k
  · rw [takeLast_of_le hl]
  · have hk : k ≤ l.length := by omega
    have hc : k ≤ (List.drop (l.length - k) l ++ [m]).length := by
      rw [List.length_append, List.length_drop]
      simp only [List.length_cons, List.length_nil]
      omega
    have h2 := takeLast_append_of_le (List.take (l.length - k) l)
      (List.drop (l.length - k) l ++ [m]) hc
    calc takeLast k (takeLast k l ++ [m])
        = takeLast k (List.drop (l.length - k) l ++ [m]) := rfl
      _ = takeLast k (List.take (l.length - k) l ++ (List.drop (l.length - k) l ++ [m])) :=
          h2.symm
      _ = takeLast k (l ++ [m]) := by rw [← List.append_assoc, List.take_append_drop]

theorem add_message_messages (h : InMemoryChatHistory) (m : BaseMessage)
    (hmax : 0 < h.max_messages) (_hlen : h.messages.length ≤ h.max_messages) :
    (h.add_message m).messages = takeLast h.max_messages (h.messages ++ [m]) ∧
    (h.add_message m).max_messages = h.max_messages ∧
    (h.add_message m).session_id = h.session_id := by
  unfold InMemoryChatHistory.add_message
  by_cases hc : h.max_messages < (h.messages ++ [m]).length
  · rw [if_pos hc]
    refine ⟨?_, rfl, rfl⟩
    unfold pyTakeLast takeLast
    rw [if_neg (by omega)]
  · rw [if_neg hc]
    refine ⟨?_, rfl, rfl⟩
    rw [takeLast_of_le (by omega)]

theorem addAll_eq (maxm : Nat) (hmax : 0 < maxm) (sid : String) :
    ∀ (ms pre : List BaseMessage),
      addAll ⟨sid, takeLast maxm pre, maxm⟩ ms = ⟨sid, takeLast maxm (pre ++ ms), maxm⟩ := by
  intro ms
  induction ms with
  | nil =>
    intro pre
    simp [addAll]
  | cons m rest ih =>
    intro pre
    have hstep := add_message_messages ⟨sid, takeLast maxm pre, maxm⟩ m hmax
      (takeLast_length maxm pre)
    have heq : InMemoryChatHistory.add_message ⟨sid, takeLast maxm pre, maxm⟩ m =
        ⟨sid, takeLast maxm (pre ++ [m]), maxm⟩ := by
      have h1 := hstep.1
      have h2 := hstep.2.1
      have h3 := hstep.2.2
      cases hadd : InMemoryChatHistory.add_message ⟨sid, takeLast maxm pre, maxm⟩ m
      rw [hadd] at h1 h2 h3
      simp only at h1 h2 h3
      subst h2 h3
      rw [h1, takeLast_takeLast_append]
    show addAll (InMemoryChatHistory.add_message ⟨sid, takeLast maxm pre, maxm⟩ m) rest = _
    rw [heq, ih (pre ++ [m]), List.append_assoc]
    rfl

/-- C4: starting from a fresh session with conversation-memory window
`window ≥ 1`, after adding any sequence of messages the stored list is
exactly the most recent `2 × window` of them in order (FIFO truncation
of the oldest), and in particular its length never exceeds
`2 × window`. -/
theorem history_capped_fifo (window : Nat) (hw : 0 < window) (sid : String)
    (ms : List BaseMessage) :
    (addAll (InMemoryChatHistory.init sid window) ms).messages = takeLast (window * 2) ms ∧
    (addAll (InMemoryChatHistory.init sid window) ms).messages.length ≤ window * 2 := by
  have hmax : 0 < window * 2 := by omega
  have hbase : InMemoryChatHistory.init sid window =
      ⟨sid, takeLast (window * 2) [], window * 2⟩ := by
    simp [InMemoryChatHistory.init, takeLast]
  constructor
  · rw [hbase, addAll_eq (window * 2) hmax sid ms []]
    simp [List.nil_append]
  · rw [hbase, addAll_eq (window * 2) hmax sid ms []]
    exact takeLast_length (window * 2) ([] ++ ms)

/-- Witness for C4 at a concrete input: window 1 (cap 2), three messages
added; only the last two remain, in order. -/
theorem history_capped_fifo_witness :
    (addAll (InMemoryChatHistory.init "s" 1)
        [.human "a", .ai "b", .human "c"]).messages =
      [BaseMessage.ai "b", BaseMessage.human "c"] ∧
    (addAll (InMemoryChatHistory.init "s" 1)
        [.human "a", .ai "b", .human "c"]).messages.length ≤ 1 * 2 := by
  have h := history_capped_fifo 1 (by omega) "s" [.human "a", .ai "b", .human "c"]
  exact ⟨by rw [h.1]; rfl, h.2⟩

/-! ### Session store (`ConversationManager`) and the session HTTP API

`ConversationManager` holds a dict from session id to
`InMemoryChatHistory`, modelled as an association list with at most one
binding per id.  `get_session` creates a missing session on demand;
`delete_session` removes an existing one and silently ignores a missing
one.  The agent API's `GET /sessions/{id}` handler reports
`len(get_messages(id))`, and `DELETE /sessions/{id}` calls
`delete_session`. -/

structure ConversationManager where
  sessions : List (String × InMemoryChatHistory)
deriving Repr, DecidableEq

/-- Python `session_id in self.sessions` / `self.sessions[session_id]`. -/
def ConversationManager.lookupSession (mgr : ConversationManager) (sid : String) :
    Option InMemoryChatHistory :=
  (mgr.sessions.find? (fun kv => kv.1 == sid)).map (·.2)

/-- `ConversationManager.get_session`: returns the session's history,
creating and storing an empty one when the id is unknown.  The second
component is the (possibly updated) store. -/
def ConversationManager.get_session (window : Nat) (mgr : ConversationManager)
    (sid : String) : InMemoryChatHistory × ConversationManager :=
  match mgr.lookupSession sid with
  | some h => (h, mgr)
  | none =>
    let h := InMemoryChatHistory.init sid window
    (h, ⟨mgr.sessions ++ [(sid, h)]⟩)

/-- In-place mutation of the history object stored under `sid`. -/
def ConversationManager.setSession (mgr : ConversationManager) (sid : String)
    (h : InMemoryChatHistory) : ConversationManager :=
  ⟨mgr.sessions.map (fun kv => if kv.1 == sid then (kv.1, h) else kv)⟩

/-- `ConversationManager.add_user_message`. -/
def ConversationManager.add_user_message (window : Nat) (mgr : ConversationManager)
    (sid content : String) : ConversationManager :=
  let hm := mgr.get_session window sid
  ConversationManager.setSession hm.2 sid (hm.1.add_message (.human content))

/-- `ConversationManager.add_ai_message`. -/
def ConversationManager.add_ai_message (window : Nat) (mgr : ConversationManager)
    (sid content : String) : ConversationManager :=
  let hm := mgr.get_session window sid
  ConversationManager.setSession hm.2 sid (hm.1.add_message (.ai content))

/-- `ConversationManager.get_messages` (which itself calls
`get_session`, creating the session when missing). -/
def ConversationManager.get_messages (window : Nat) (mgr : ConversationManager)
    (sid : String) : List BaseMessage × ConversationManager :=
  let hm := mgr.get_session window sid
  (hm.1.messages, hm.2)

/-- `ConversationManager.delete_session`: removes the binding when
present, does nothing (raises nothing) when absent. -/
def ConversationManager.delete_session (mgr : ConversationManager) (sid : String) :
    ConversationManager :=
  if (mgr.lookupSession sid).isSome then
    ⟨mgr.sessions.filter (fun kv => !(kv.1 == sid))⟩
  else
    mgr

structure SessionResponse where
  session_id : String
  message_count : Nat
deriving Repr, DecidableEq

/-- The `GET /sessions/{session_id}` handler in
src/clinicaltrial-agent/api/main.py. -/
def api_get_session (window : Nat) (mgr : ConversationManager) (sid : String) :
    SessionResponse × ConversationManager :=
  let mm := mgr.get_messages window sid
  (⟨sid, mm.1.length⟩, mm.2)

theorem find?_filter_ne (sid : String) :
    ∀ (l : List (String × InMemoryChatHistory)),
      (l.filter (fun kv => !(kv.1 == sid))).find? (fun kv => kv.1 == sid) = none := by
  intro l
  induction l with
  | nil => rfl
  | cons kv rest ih =>
    by_cases hk : kv.1 == sid
    · simp only [List.filter_cons, hk, Bool.not_true, if_false]
      exact ih
    · have hk' : (kv.1 == sid) = false := by
        cases hkk : (kv.1 == sid)
        · rfl
        · exact absurd hkk hk
      simp only [List.filter_cons, hk', Bool.not_false, if_true, List.find?_cons, hk']
      exact ih

/-- C7: deleting a session removes its binding; deleting an unknown
session id leaves the store unchanged (and raises nothing); and a
session-info query after deletion reports a message count of 0, exactly
as for a freshly created session. -/
theorem delete_session_semantics (window : Nat) (mgr : ConversationManager) (sid : String) :
    (mgr.delete_session sid).lookupSession sid = none ∧
    (mgr.lookupSession sid = none → mgr.delete_session sid = mgr) ∧
    (api_get_session window (mgr.delete_session sid) sid).1 = ⟨sid, 0⟩ := by
  have hnone : (mgr.delete_session sid).lookupSession sid = none := by
    unfold ConversationManager.delete_session
    by_cases hc : (mgr.lookupSession sid).isSome
    · rw [if_pos hc]
      unfold ConversationManager.lookupSession
      rw [find?_filter_ne]
      rfl
    · rw [if_neg hc]
      cases hl : mgr.lookupSession sid
      · rfl
      · rw [hl] at hc
        exact absurd rfl hc
  refine ⟨hnone, ?_, ?_⟩
  · intro habs
    unfold ConversationManager.delete_session
    rw [habs]
    rfl
  · unfold api_get_session ConversationManager.get_messages ConversationManager.get_session
    rw [hnone]
    rfl

/-- Witness for C7 at a concrete input: a store holding one session
with two messages. -/
theorem delete_session_semantics_witness :
    (ConversationManager.delete_session ⟨[("s", ⟨"s", [.human "hi", .ai "yo"], 20⟩)]⟩
        "s").lookupSession "s" = none ∧
    ConversationManager.delete_session ⟨[("s", ⟨"s", [.human "hi", .ai "yo"], 20⟩)]⟩ "t" =
      ⟨[("s", ⟨"s", [.human "hi", .ai "yo"], 20⟩)]⟩ ∧
    (api_get_session 10
        (ConversationManager.delete_session ⟨[("s", ⟨"s", [.human "hi", .ai "yo"], 20⟩)]⟩ "s")
        "s").1 = ⟨"s", 0⟩ := by
  have h1 := delete_session_semantics 10 ⟨[("s", ⟨"s", [.human "hi", .ai "yo"], 20⟩)]⟩ "s"
  have h2 := delete_session_semantics 10 ⟨[("s", ⟨"s", [.human "hi", .ai "yo"], 20⟩)]⟩ "t"
  exact ⟨h1.1, h2.2.1 rfl, h1.2.2⟩

/-! ### Agent orchestration (src/clinicaltrial-agent/agent.py)

`ClinicalTrialAgent.query` appends the user message to the session
history, invokes the LangGraph executor, and on success extracts the
final response (string content, or the joined `text` parts of a list
content), appends it as an assistant message and returns it with the
filtered callback events; any exception from the invocation is caught
and converted into an apology string plus an empty step list.  The
executor invocation's behaviour is modelled as an `ExecOutcome`. -/

inductive ContentPart where
  | textPart (s : String)
  | otherPart (s : String)
deriving Repr, DecidableEq

/-- The `content` of the executor's final message: a plain string or a
list of parts. -/
inductive MsgContent where
  | cstr (s : String)
  | clist (parts : List ContentPart)

/-- Response extraction from the final message (lines 117-121 of
agent.py): join the `text` fields of dict parts, or stringify. -/
def extractResponse : MsgContent → String
  | .cstr s => s
  | .clist parts =>
    String.join (parts.map (fun p =>
      match p with
      | .textPart s => s
      | .otherPart _ => ""))

structure CallbackEvent where
  type : String
  data : String
deriving Repr, DecidableEq

/-- Behaviour of `self.agent_executor.ainvoke`: the final message
content, or the exception message it raised. -/
inductive ExecOutcome where
  | ok (content : MsgContent)
  | exc (msg : String)

/-- The event types kept as "thinking" steps (line 129 of agent.py). -/
def isThinkingStep (e : CallbackEvent) : Bool :=
  e.type == "tool_start" || e.type == "agent_action"

/-- `ClinicalTrialAgent.query`: returns the updated session store, the
response string, and the thinking steps.  Being a total function, it
propagates no exception: the `except` clause converts any invocation
failure into a returned value. -/
def agentQuery (window : Nat) (mgr : ConversationManager) (user_message sid : String)
    (outcome : ExecOutcome) (events : List CallbackEvent) :
    ConversationManager × String × List CallbackEvent :=
  let mgr1 := ConversationManager.add_user_message window mgr sid user_message
  match outcome with
  | .ok content =>
    let response := extractResponse content
    let mgr2 := ConversationManager.add_ai_message window mgr1 sid response
    (mgr2, response, events.filter isThinkingStep)
  | .exc emsg =>
    (mgr1, "I encountered an error: " ++ emsg, [])

/-- C8: when the executor invocation raises, `query` does not propagate
the exception: it returns the apology message built from the exception
text together with an empty list of thinking steps. -/
theorem agent_query_catches_exceptions (window : Nat) (mgr : ConversationManager)
    (user_message sid emsg : String) (events : List CallbackEvent) :
    (agentQuery window mgr user_message sid (.exc emsg) events).2.1 =
      "I encountered an error: " ++ emsg ∧
    (agentQuery window mgr user_message sid (.exc emsg) events).2.2 = [] :=
  ⟨rfl, rfl⟩

theorem lookupSession_get_session (window : Nat) (mgr : ConversationManager) (sid : String) :
    (mgr.get_session window sid).2.lookupSession sid = some (mgr.get_session window sid).1 := by
  unfold ConversationManager.get_session
  cases hl : mgr.lookupSession sid with
  | some h => simpa using hl
  | none =>
    simp only
    unfold ConversationManager.lookupSession at hl ⊢
    cases hf : mgr.sessions.find? (fun kv => kv.1 == sid) with
    | some kv =>
      rw [hf] at hl
      simp at hl
    | none =>
      rw [List.find?_append, hf]
      simp

theorem lookupSession_setSession (sid : String) (h : InMemoryChatHistory)
    (mgr : ConversationManager) (hsome : (mgr.lookupSession sid).isSome) :
    (mgr.setSession sid h).lookupSession sid = some h := by
  obtain ⟨l⟩ := mgr
  revert hsome
  induction l with
  | nil =>
    intro habs
    simp [ConversationManager.lookupSession] at habs
  | cons kv rest ih =>
    intro hsome
    unfold ConversationManager.setSession ConversationManager.lookupSession
    rw [List.map_cons]
    by_cases hk : (kv.1 == sid) = true
    · rw [if_pos hk]
      rw [List.find?_cons_of_pos _ (by exact hk)]
      rfl
    · have hk' : (kv.1 == sid) = false := by simpa using hk
      rw [if_neg hk]
      rw [List.find?_cons_of_neg _ (by exact hk)]
      have hsome' : ((ConversationManager.mk rest).lookupSession sid).isSome := by
        unfold ConversationManager.lookupSession at hsome ⊢
        rw [List.find?_cons_of_neg _ (by exact hk)] at hsome
        exact hsome
      exact ih hsome'

theorem get_messages_of_lookup (window : Nat) (mgr : ConversationManager) (sid : String)
    (h : InMemoryChatHistory) (hl : mgr.lookupSession sid = some h) :
    ConversationManager.get_messages window mgr sid = (h.messages, mgr) := by
  unfold ConversationManager.get_messages ConversationManager.get_session
  rw [hl]

theorem add_message_append (h : InMemoryChatHistory) (m : BaseMessage) :
    ∃ pre, (h.add_message m).messages = pre ++ [m] := by
  unfold InMemoryChatHistory.add_message
  by_cases hc : h.max_messages < (h.messages ++ [m]).length
  · rw [if_pos hc]
    simp only
    unfold pyTakeLast
    by_cases hk : h.max_messages = 0
    · rw [if_pos hk]
      exact ⟨h.messages, rfl⟩
    · rw [if_neg hk]
      rw [List.drop_append_of_le_length (by
        simp only [List.length_append, List.length_cons, List.length_nil]
        omega)]
      exact ⟨_, rfl⟩
  · rw [if_neg hc]
    exact ⟨h.messages, rfl⟩

/-- C9: on a failed invocation the user message has already been
appended and stays: the session history afterwards is exactly the old
history with the user message appended (and truncated to the cap), so
no assistant message is recorded; the user message is the last entry;
and for a previously unknown session the resulting message count is 1 —
an odd, unpaired count. -/
theorem agent_query_failure_keeps_user_message (window : Nat) (hw : 0 < window)
    (mgr : ConversationManager) (user_message sid emsg : String)
    (events : List CallbackEvent) :
    (ConversationManager.get_messages window
        (agentQuery window mgr user_message sid (.exc emsg) events).1 sid).1 =
      ((mgr.get_session window sid).1.add_message (.human user_message)).messages ∧
    (∃ pre, (ConversationManager.get_messages window
        (agentQuery window mgr user_message sid (.exc emsg) events).1 sid).1 =
      pre ++ [BaseMessage.human user_message]) ∧
    (mgr.lookupSession sid = none →
      (api_get_session window (agentQuery window mgr user_message sid (.exc emsg) events).1
          sid).1.message_count = 1) := by
  have hsome : ((mgr.get_session window sid).2.lookupSession sid).isSome := by
    rw [lookupSession_get_session]
    rfl
  have hset := lookupSession_setSession sid
    ((mgr.get_session window sid).1.add_message (.human user_message))
    (mgr.get_session window sid).2 hsome
  have hmm := get_messages_of_lookup window
    (ConversationManager.setSession (mgr.get_session window sid).2 sid
      ((mgr.get_session window sid).1.add_message (.human user_message)))
    sid
    ((mgr.get_session window sid).1.add_message (.human user_message)) hset
  have hmain : (ConversationManager.get_messages window
      (agentQuery window mgr user_message sid (.exc emsg) events).1 sid).1 =
      ((mgr.get_session window sid).1.add_message (.human user_message)).messages := by
    show (ConversationManager.get_messages window
      (ConversationManager.setSession (mgr.get_session window sid).2 sid
        ((mgr.get_session window sid).1.add_message (.human user_message))) sid).1 = _
    rw [hmm]
  refine ⟨hmain, ?_, ?_⟩
  · obtain ⟨pre, hpre⟩ := add_message_append (mgr.get_session window sid).1
      (.human user_message)
    exact ⟨pre, by rw [hmain, hpre]⟩
  · intro hnone
    have hgs : mgr.get_session window sid =
        (InMemoryChatHistory.init sid window,
          ⟨mgr.sessions ++ [(sid, InMemoryChatHistory.init sid window)]⟩) := by
      unfold ConversationManager.get_session
      rw [hnone]
    have hmsgs : ((mgr.get_session window sid).1.add_message
        (.human user_message)).messages = [.human user_message] := by
      rw [hgs]
      unfold InMemoryChatHistory.add_message InMemoryChatHistory.init
      simp only [List.nil_append]
      rw [if_neg (by
        simp only [List.length_cons, List.length_nil]
        omega)]
    have hlen : (ConversationManager.get_messages window
        (agentQuery window mgr user_message sid (.exc emsg) events).1 sid).1.length = 1 := by
      rw [hmain, hmsgs]
      rfl
    exact hlen

/-- Witness for C9 at a concrete input: window 1, empty store, a failing
invocation; the lone user message remains and the count is the odd
number 1. -/
theorem agent_query_failure_keeps_user_message_witness :
    (ConversationManager.get_messages 1
        (agentQuery 1 ⟨[]⟩ "hello" "s" (.exc "boom") []).1 "s").1 =
      [BaseMessage.human "hello"] ∧
    (api_get_session 1 (agentQuery 1 ⟨[]⟩ "hello" "s" (.exc "boom") []).1
        "s").1.message_count = 1 := by
  have h := agent_query_failure_keeps_user_message 1 (by omega) ⟨[]⟩ "hello" "s" "boom" []
  refine ⟨?_, h.2.2 rfl⟩
  rw [h.1]
  rfl

/-! ### Search query construction
(src/clinicaltrials-mcp/client_api/__init__.py `search_studies` and
src/clinicaltrials-mcp/tools/studies_search.py `search_clinical_trials`)

`search_studies` assembles the outgoing query dict in insertion order,
guarding each optional entry by Python truthiness, then merges `kwargs`
into it.  `search_clinical_trials` forwards its arguments and passes
`countTotal=True if not page_token else False` through `kwargs`. -/

inductive PVal where
  | pstr (s : String)
  | pint (n : Int)
  | pbool (b : Bool)
deriving Repr, DecidableEq

/-- Outgoing query parameters, as an insertion-ordered dict. -/
abbrev QueryParams := List (String × PVal)

/-- Python dict lookup on the params. -/
def paramsGet (params : QueryParams) (key : String) : Option PVal :=
  (params.find? (fun kv => kv.1 == key)).map (·.2)

/-- Python `dict.update` with a single-entry dict: overwrite in place or
append. -/
def pyUpdateOne (params : QueryParams) (key : String) (v : PVal) : QueryParams :=
  if params.any (fun kv => kv.1 == key) then
    params.map (fun kv => if kv.1 == key then (kv.1, v) else kv)
  else
    params ++ [(key, v)]

/-- Python `params.update(kwargs)`. -/
def pyUpdate (params : QueryParams) (kwargs : QueryParams) : QueryParams :=
  kwargs.foldl (fun ps kv => pyUpdateOne ps kv.1 kv.2) params

/-- Python truthiness of an optional string (`None` and `""` are falsy). -/
def pyTruthyStr (o : Option String) : Bool :=
  match o with
  | none => false
  | some s => !s.isEmpty

/-- Python truthiness of an optional list (`None` and `[]` are falsy). -/
def pyTruthyList (o : Option (List String)) : Bool :=
  match o with
  | none => false
  | some l => !l.isEmpty

/-- The params dict built by `ClinicalTrialsAPIClient.search_studies`. -/
def search_studies_params (query_cond query_term query_locn query_intr : Option String)
    (filter_overall_status : Option (List String)) (filter_geo : Option String)
    (page_size : Int) (page_token : Option String) (fields : Option (List String))
    (kwargs : QueryParams) : QueryParams :=
  let p0 : QueryParams := []
  let p1 := if pyTruthyStr query_cond then
    p0 ++ [("query.cond", .pstr (query_cond.getD ""))] else p0
  let p2 := if pyTruthyStr query_term then
    p1 ++ [("query.term", .pstr (query_term.getD ""))] else p1
  let p3 := if pyTruthyStr query_locn then
    p2 ++ [("query.locn", .pstr (query_locn.getD ""))] else p2
  let p4 := if pyTruthyStr query_intr then
    p3 ++ [("query.intr", .pstr (query_intr.getD ""))] else p3
  let p5 := if pyTruthyList filter_overall_status then
    p4 ++ [("filter.overallStatus",
      .pstr (String.intercalate "|" (filter_overall_status.getD [])))] else p4
  let p6 := if pyTruthyStr filter_geo then
    p5 ++ [("filter.geo", .pstr (filter_geo.getD ""))] else p5
  let p7 := p6 ++ [("pageSize", .pint page_size)]
  let p8 := if pyTruthyStr page_token then
    p7 ++ [("pageToken", .pstr (page_token.getD ""))] else p7
  let p9 := if pyTruthyList fields then
    p8 ++ [("fields", .pstr (String.intercalate "|" (fields.getD [])))] else p8
  pyUpdate p9 kwargs

/-- The params dict produced by one `search_clinical_trials` invocation:
it delegates to `search_studies` with `fields=None`, no geo filter, and
`countTotal=True if not page_token else False` passed through `kwargs`. -/
def search_clinical_trials_params (condition intervention location : Option String)
    (status : Option (List String)) (other_terms : Option String)
    (page_size : Int) (page_token : Option String) : QueryParams :=
  search_studies_params condition other_terms location intervention status none
    page_size page_token none
    [("countTotal", .pbool (!pyTruthyStr page_token))]

/-- C3 counterexample: with a page token supplied the tool does NOT omit
the total-count parameter from the outgoing query: `countTotal` is still
present, bound to `false`. -/
theorem search_tool_countTotal_counterexample :
    paramsGet (search_clinical_trials_params (some "diabetes") none none none none 10
        (some "abc")) "countTotal" = some (.pbool false) ∧
    ¬ paramsGet (search_clinical_trials_params (some "diabetes") none none none none 10
        (some "abc")) "countTotal" = none := by
  have h : paramsGet (search_clinical_trials_params (some "diabetes") none none none none 10
      (some "abc")) "countTotal" = some (.pbool false) := by
    simp [search_clinical_trials_params, search_studies_params, pyUpdate, pyUpdateOne,
      pyTruthyStr, pyTruthyList, paramsGet, List.find?,
      show "abc".isEmpty = false from rfl]
  refine ⟨h, ?_⟩
  rw [h]
  simp

/-- C3 amended: when no (non-empty) page token is supplied the outgoing
query carries `countTotal=true` and no `pageToken`; when a page token is
supplied the query carries the token and `countTotal=false` — the
total-count parameter is sent with value `false`, not omitted. -/
theorem if_beq_true {α : Sort _} {p : Bool} (h : p = true) (a b : α) :
    (if p = true then a else b) = a := by
  rw [h]
  simp

theorem if_beq_false {α : Sort _} {p : Bool} (h : p = false) (a b : α) :
    (if p = true then a else b) = b := by
  rw [h]
  simp

theorem pyTruthyStr_none_eq : pyTruthyStr none = false := rfl

theorem pyTruthyList_none_eq : pyTruthyList none = false := rfl

set_option maxHeartbeats 4000000 in
/-- C3 amended: when no (non-empty) page token is supplied the outgoing
query carries `countTotal=true` and no `pageToken`; when a page token is
supplied the query carries the token and `countTotal=false` — the
total-count parameter is sent with value `false`, not omitted. -/
theorem search_tool_countTotal (condition intervention location : Option String)
    (status : Option (List String)) (other_terms : Option String)
    (page_size : Int) (page_token : Option String) :
    (pyTruthyStr page_token = false →
      paramsGet (search_clinical_trials_params condition intervention location status
          other_terms page_size page_token) "countTotal" = some (.pbool true) ∧
      paramsGet (search_clinical_trials_params condition intervention location status
          other_terms page_size page_token) "pageToken" = none) ∧
    (pyTruthyStr page_token = true →
      paramsGet (search_clinical_trials_params condition intervention location status
          other_terms page_size page_token) "countTotal" = some (.pbool false) ∧
      paramsGet (search_clinical_trials_params condition intervention location status
          other_terms page_size page_token) "pageToken" =
        some (.pstr (page_token.getD ""))) := by
  constructor
  · intro htok
    simp only [search_clinical_trials_params, search_studies_params, pyUpdate, pyUpdateOne,
      List.foldl_cons, List.foldl_nil, List.nil_append, if_beq_false htok,
      if_beq_false pyTruthyStr_none_eq, if_beq_false pyTruthyList_none_eq]
    simp only [htok, Bool.not_false]
    split_ifs <;> simp_all [paramsGet, List.find?]
  · intro htok
    simp only [search_clinical_trials_params, search_studies_params, pyUpdate, pyUpdateOne,
      List.foldl_cons, List.foldl_nil, List.nil_append, if_beq_true htok,
      if_beq_false pyTruthyStr_none_eq, if_beq_false pyTruthyList_none_eq]
    simp only [htok, Bool.not_true]
    split_ifs <;> simp_all [paramsGet, List.find?]

/-- Witness for C3 (amended) at concrete inputs: one call without a page
token, one with token "abc". -/
theorem search_tool_countTotal_witness :
    (paramsGet (search_clinical_trials_params (some "diabetes") none none none none 10
        none) "countTotal" = some (.pbool true) ∧
      paramsGet (search_clinical_trials_params (some "diabetes") none none none none 10
        none) "pageToken" = none) ∧
    (paramsGet (search_clinical_trials_params (some "diabetes") none none none none 10
        (some "abc")) "countTotal" = some (.pbool false) ∧
      paramsGet (search_clinical_trials_params (some "diabetes") none none none none 10
        (some "abc")) "pageToken" = some (.pstr "abc")) := by
  constructor
  · exact (search_tool_countTotal (some "diabetes") none none none none 10 none).1 rfl
  · exact (search_tool_countTotal (some "diabetes") none none none none 10
      (some "abc")).2 rfl

/-! ### Search tool response reshaping
(src/clinicaltrials-mcp/tools/studies_search.py, lines 54-59)

`search_clinical_trials` wraps the upstream response dict `result` into
`{"studies": result.get("studies", []), "totalCount":
result.get("totalCount", "unknown"), "nextPageToken":
result.get("nextPageToken"), "hasMore": "nextPageToken" in result}`. -/

def searchToolResult (result : List (String × JVal)) : List (String × JVal) :=
  [("studies", (dictGet result "studies").getD (.jarr [])),
   ("totalCount", (dictGet result "totalCount").getD (.jstr "unknown")),
   ("nextPageToken", (dictGet result "nextPageToken").getD .jnull),
   ("hasMore", .jbool (dictContains result "nextPageToken"))]

/-- C6: the tool's returned object always contains a `studies` entry
(the upstream list, or `[]` when absent upstream) and a `totalCount`
entry (the upstream count, or the string "unknown" when absent), and its
`hasMore` entry is `true` if and only if the upstream response contains
a `nextPageToken` key. -/
theorem search_tool_result_shape (result : List (String × JVal)) :
    dictGet (searchToolResult result) "hasMore" =
      some (.jbool (dictContains result "nextPageToken")) ∧
    (dictGet (searchToolResult result) "hasMore" = some (.jbool true) ↔
      dictContains result "nextPageToken" = true) ∧
    dictGet (searchToolResult result) "studies" =
      some ((dictGet result "studies").getD (.jarr [])) ∧
    (dictGet result "studies" = none →
      dictGet (searchToolResult result) "studies" = some (.jarr [])) ∧
    dictGet (searchToolResult result) "totalCount" =
      some ((dictGet result "totalCount").getD (.jstr "unknown")) := by
  refine ⟨rfl, ?_, rfl, ?_, rfl⟩
  · constructor
    · intro h
      have h' : some (JVal.jbool (dictContains result "nextPageToken")) =
          some (.jbool true) := h
      cases hc : dictContains result "nextPageToken"
      · rw [hc] at h'
        simp at h'
      · rfl
    · intro h
      show some (JVal.jbool (dictContains result "nextPageToken")) = some (.jbool true)
      rw [h]
  · intro h
    show some ((dictGet result "studies").getD (.jarr [])) = some (.jarr [])
    rw [h]
    rfl

/-- Witness for C6 at a concrete input: an upstream response with no
`studies` key and no `nextPageToken` key. -/
theorem search_tool_result_shape_witness :
    dictGet (searchToolResult [("totalCount", .jnum 5)]) "studies" = some (.jarr []) ∧
    dictGet (searchToolResult [("totalCount", .jnum 5)]) "hasMore" = some (.jbool false) := by
  have h := search_tool_result_shape [("totalCount", .jnum 5)]
  exact ⟨h.2.2.2.1 rfl, h.1⟩
